import Mathlib

/-!
Verification development for the `colablib` repository.

The definitions below are shallow embeddings of the Python functions in
`colablib/sd_models/downloader.py`, `colablib/model_downloader.py` and
`colablib/utils/git_utils.py`.  Pure string manipulation is translated to
Lean functions on `String` / `List Char`; the thread-pool batch loops are
translated to folds over the list of per-request completion events in
completion order (the executor's behaviour — return value or escaping
exception — is an explicit parameter); subprocess and filesystem effects
are passed in as explicit parameters.
-/

namespace Colablib

/-! ## String helpers (Python `in`, `str.lower`, `str.replace`) -/

/-- Python `pat in s` on lists of characters: `pat` occurs as a contiguous
substring (the empty pattern always occurs). -/
def containsSub (pat : List Char) : List Char → Bool
  | [] => pat.isEmpty
  | c :: cs => List.isPrefixOf pat (c :: cs) || containsSub pat cs

/-- Python `pat in s` for strings. -/
def strContains (s pat : String) : Bool := containsSub pat.data s.data

/-- Python `s.startswith(pre)`. -/
def pyStartsWith (s pre : String) : Bool := List.isPrefixOf pre.data s.data

/-- Python `s.endswith(suf)`. -/
def pyEndsWith (s suf : String) : Bool := List.isSuffixOf suf.data s.data

/-- Python `s.lower()` (ASCII case folding, which is all the source uses). -/
def pyLower (s : String) : String := ⟨s.data.map Char.toLower⟩

/-- One step of Python `s.replace(pat, rep)`; `fuel` bounds the recursion and
is instantiated with the length of the subject string, which suffices for the
non-empty patterns used by the source. -/
def replaceFuel (pat rep : List Char) : Nat → List Char → List Char
  | 0, s => s
  | _ + 1, [] => []
  | n + 1, c :: cs =>
    if List.isPrefixOf pat (c :: cs) then
      rep ++ replaceFuel pat rep n (List.drop (pat.length - 1) cs)
    else
      c :: replaceFuel pat rep n cs

/-- Python `s.replace(pat, rep)`: replace every (leftmost, non-overlapping)
occurrence of `pat` by `rep`. -/
def pyReplace (s pat rep : String) : String :=
  ⟨replaceFuel pat.data rep.data s.data.length s.data⟩

theorem str_data_append (a b : String) : (a ++ b).data = a.data ++ b.data := rfl

theorem containsSub_append_right (pat xs ys : List Char)
    (h : containsSub pat ys = true) : containsSub pat (xs ++ ys) = true := by
  induction xs with
  | nil => simpa using h
  | cons x xs ih =>
    simp only [List.cons_append, containsSub, Bool.or_eq_true]
    exact Or.inr ih

theorem pyLower_append (a b : String) : pyLower (a ++ b) = pyLower a ++ pyLower b := by
  show String.mk _ = _
  simp [pyLower, str_data_append]
  rfl

theorem strContains_append_right (a b pat : String)
    (h : strContains b pat = true) : strContains (a ++ b) pat = true := by
  unfold strContains at *
  rw [str_data_append]
  exact containsSub_append_right _ _ _ h

/-! ## Python values, as far as `parse_args` can observe them

`parse_args` (both copies) only applies `isinstance` tests for `bool`,
`int`, `float`, `str`, compares against `None`, tests truthiness of `bool`s,
and renders values with `str(...)`.  A value of any other type (list, dict,
...) is therefore abstracted by the constructor `pyother` carrying its
`str(...)` rendering; a `float` is likewise abstracted by its `str(...)`
rendering (no floating-point arithmetic is performed by the source). -/

inductive PyVal where
  | pynone
  | pybool (b : Bool)
  | pyint (n : Int)
  | pyfloat (rep : String)
  | pystr (s : String)
  | pyother (rep : String)
deriving Repr, DecidableEq

/-- Python `str(v)`. -/
def PyVal.pyStr : PyVal → String
  | .pynone => "None"
  | .pybool true => "True"
  | .pybool false => "False"
  | .pyint n => toString n
  | .pyfloat rep => rep
  | .pystr s => s
  | .pyother rep => rep

def PyVal.isNone : PyVal → Bool
  | .pynone => true
  | _ => false

def PyVal.isBool : PyVal → Bool
  | .pybool _ => true
  | _ => false

def PyVal.boolVal : PyVal → Bool
  | .pybool b => b
  | _ => false

def PyVal.isStr : PyVal → Bool
  | .pystr _ => true
  | _ => false

def PyVal.isFloat : PyVal → Bool
  | .pyfloat _ => true
  | _ => false

def PyVal.isInt : PyVal → Bool
  | .pyint _ => true
  | _ => false

/-- A value whose Python type is `NoneType`, `bool`, `int`, `float` or `str`. -/
def PyVal.isScalar : PyVal → Bool
  | .pyother _ => false
  | _ => true

/-! ## The two `parse_args` implementations (claim C10)

Python dicts are insertion ordered, so a configuration dict is embedded as
an association list. -/

/-- `parse_args` from `colablib/sd_models/downloader.py` (lines 71-89):
keys starting with `_` contribute `str(v)`; otherwise a value that is
neither `None` nor a `bool` contributes `--k=v`; a true `bool` contributes
`--k`; everything else is dropped. -/
def parse_args_sd : List (String × PyVal) → List String
  | [] => []
  | (k, v) :: rest =>
    (if pyStartsWith k "_" then [v.pyStr]
     else if !v.isNone && !v.isBool then ["--" ++ (k ++ ("=" ++ v.pyStr))]
     else if v.isBool && v.boolVal then ["--" ++ k]
     else []) ++ parse_args_sd rest

/-- `parse_args` from `colablib/model_downloader.py` (lines 15-30):
keys starting with `_` contribute `str(v)`; then `str` values contribute
`--k=v`, true `bool`s contribute `--k`, `float`s and `int`s contribute
`--k=v`, and every other value (including `None` and any non-scalar) is
dropped.  (The source's `isinstance(v, str) and v is not None` has a
redundant second conjunct; the `not isinstance(v, bool)` guards on the
`float`/`int` branches are captured by the disjoint constructors.) -/
def parse_args_md : List (String × PyVal) → List String
  | [] => []
  | (k, v) :: rest =>
    (if pyStartsWith k "_" then [v.pyStr]
     else if v.isStr then ["--" ++ (k ++ ("=" ++ v.pyStr))]
     else if v.isBool && v.boolVal then ["--" ++ k]
     else if v.isFloat then ["--" ++ (k ++ ("=" ++ v.pyStr))]
     else if v.isInt then ["--" ++ (k ++ ("=" ++ v.pyStr))]
     else []) ++ parse_args_md rest

/-- The behaviour claim C10 ascribes to both implementations, written from
the claim's words (refinement target): `_`-keys contribute the bare value,
true booleans contribute `--key`, false booleans and `None` are omitted,
every other value contributes `--key=value`. -/
def parse_args_described : List (String × PyVal) → List String
  | [] => []
  | (k, v) :: rest =>
    (if pyStartsWith k "_" then [v.pyStr]
     else
       match v with
       | .pynone => []
       | .pybool b => if b then ["--" ++ k] else []
       | _ => ["--" ++ (k ++ ("=" ++ v.pyStr))]) ++ parse_args_described rest

/-! ## A model of `urllib.parse.urlparse`

CPython's `urlsplit`/`urlparse` is modelled in two layers.  `urlparseModel`
is the field extraction: an optional scheme (a leading run of
letters/digits/`+`/`-`/`.` starting with a letter, before a `:`), a netloc
only after a literal `//`, then the fragment split off at the first `#`,
then the query split off at the first `?`, and finally `urlparse`'s
parameter split (`;` in the last path segment).  `urlparsePy` adds the
`ValueError` path that CPython raises in every Python 3 version — an
unmatched `[` or `]` in the netloc raises `Invalid IPv6 URL` — making the
model partial exactly where `urlparse` is.  Two further, narrower
`ValueError` paths are outside the model and are excluded by hypothesis
where a theorem needs the no-raise direction: the NFKC check of
`_checknetloc`, reachable only for netlocs containing non-ASCII
characters, and the bracketed-host validation of Python 3.11+, reachable
only for netlocs containing a matched bracket pair. -/

def isSchemeChar (c : Char) : Bool :=
  c.isAlpha || c.isDigit || c = '+' || c = '-' || c = '.'

/-- Split a list at the first occurrence of `ch`: the part before it, and
`some` part after it when `ch` occurs. -/
def splitAtFirst (ch : Char) : List Char → List Char × Option (List Char)
  | [] => ([], none)
  | c :: cs =>
    if c = ch then ([], some cs)
    else
      let p := splitAtFirst ch cs
      (c :: p.1, p.2)

/-- CPython `urlsplit` scheme extraction: returns `(scheme, rest)`, with the
scheme lowercased, or `("", url)` when no scheme is recognised. -/
def splitScheme (cs : List Char) : List Char × List Char :=
  match splitAtFirst ':' cs with
  | (before, some after) =>
    match before with
    | [] => ([], cs)
    | c0 :: _ =>
      if c0.isAlpha && before.all isSchemeChar then (before.map Char.toLower, after)
      else ([], cs)
  | (_, none) => ([], cs)

/-- CPython `_splitnetloc`: a netloc is present only after a leading `//`
and extends to the first `/`, `?` or `#`. -/
def splitNetloc (cs : List Char) : List Char × List Char :=
  match cs with
  | '/' :: '/' :: rest =>
    (rest.takeWhile (fun c => c ≠ '/' && c ≠ '?' && c ≠ '#'),
     rest.dropWhile (fun c => c ≠ '/' && c ≠ '?' && c ≠ '#'))
  | _ => ([], cs)

/-- CPython `_splitparams`: split `;`-parameters off the last path segment. -/
def splitPathParams (p : List Char) : List Char :=
  if p.contains '/' then
    let rev := p.reverse
    let lastSeg := (rev.takeWhile (fun c => c ≠ '/')).reverse
    let stem := (rev.dropWhile (fun c => c ≠ '/')).reverse
    if lastSeg.contains ';' then stem ++ lastSeg.takeWhile (fun c => c ≠ ';') else p
  else if p.contains ';' then p.takeWhile (fun c => c ≠ ';') else p

structure UrlParts where
  scheme : String
  netloc : String
  path : String
  query : String
  fragment : String
deriving Repr, DecidableEq

/-- The field extraction of `urllib.parse.urlparse` (see the section
comment; the `ValueError` path is layered on in `urlparsePy`, and
`clone_repo`'s use of the fields sits inside a `try`/`except` that turns
any parse error into a `None` return before the existence check). -/
def urlparseModel (url : String) : UrlParts :=
  let (sch, rest1) := splitScheme url.data
  let (nl, rest2) := splitNetloc rest1
  let (rest3, fragOpt) := splitAtFirst '#' rest2
  let (rawPath, queryOpt) := splitAtFirst '?' rest3
  { scheme := ⟨sch⟩
    netloc := ⟨nl⟩
    path := ⟨splitPathParams rawPath⟩
    query := ⟨queryOpt.getD []⟩
    fragment := ⟨fragOpt.getD []⟩ }

/-- The netloc characters `urlsplit` extracts from a URL (the argument of
its bracket check). -/
def netlocOf (url : String) : List Char :=
  (splitNetloc (splitScheme url.data).2).1

/-- CPython `urlsplit`'s bracket test: a netloc with `[` but no `]`, or
`]` but no `[`, raises `ValueError("Invalid IPv6 URL")` in every
Python 3 version. -/
def invalidIPv6Netloc (nl : List Char) : Bool :=
  (nl.contains '[' && !(nl.contains ']')) || (nl.contains ']' && !(nl.contains '['))

/-- A netloc that is pure ASCII and bracket-free: on such netlocs
`urlparse` returns normally in every Python 3 version (the NFKC check
needs a non-ASCII character, the bracketed-host check needs a `[`). -/
def asciiBracketFree (nl : List Char) : Bool :=
  nl.all (fun c => c.toNat < 128) && !(nl.contains '[') && !(nl.contains ']')

/-- Model of `urllib.parse.urlparse` including its `ValueError` path
(`Except.error` models the raise; see the section comment for the two
narrower raise paths outside the model). -/
def urlparsePy (url : String) : Except String UrlParts :=
  if invalidIPv6Netloc (netlocOf url) then Except.error "Invalid IPv6 URL"
  else Except.ok (urlparseModel url)

theorem not_invalidIPv6_of_asciiBracketFree (nl : List Char)
    (h : asciiBracketFree nl = true) : invalidIPv6Netloc nl = false := by
  simp only [asciiBracketFree, Bool.and_eq_true, Bool.not_eq_true'] at h
  obtain ⟨⟨-, h1⟩, h2⟩ := h
  simp only [invalidIPv6Netloc, h1, h2]
  rfl

/-! ## `DownloadConfig` (`colablib/sd_models/downloader.py`, lines 18-69) -/

/-- `DownloadConfig`: an optional API token and a base header dict
(embedded as an insertion-ordered association list with unique keys, as a
Python dict). -/
structure DownloadConfig where
  token : Option String
  headers : List (String × String)
deriving Repr, DecidableEq

/-- Python truthiness of `self.token`: falsy when `None` or empty. -/
def tokenFalsy (cfg : DownloadConfig) : Bool :=
  match cfg.token with
  | none => true
  | some t => t = ""

/-- Python dict assignment `d[k] = v` on an association list: overwrite the
first binding of `k` in place, or append a new binding. -/
def setKey : List (String × String) → String → String → List (String × String)
  | [], k, v => [(k, v)]
  | (k', v') :: rest, k, v =>
    if k' = k then (k, v) :: rest else (k', v') :: setKey rest k v

/-- Python `d.get(k)` on an association list. -/
def lookupKey (hs : List (String × String)) (k : String) : Option String :=
  (hs.find? (fun p => p.1 = k)).map Prod.snd

/-- `DownloadConfig.get_headers` (downloader.py lines 29-42): copy the
stored headers and add a bearer `Authorization` header when the URL
contains `huggingface.co` and the token is truthy and starts with `hf_`.
(The `.copy()` of the source is the identity in this pure embedding; the
returned list is a value distinct from the stored one by construction.) -/
def get_headers (cfg : DownloadConfig) (url : String) : List (String × String) :=
  match cfg.token with
  | some t =>
    if strContains url "huggingface.co" && !(t = "" : Bool) && pyStartsWith t "hf_" then
      setKey cfg.headers "Authorization" ("Bearer " ++ t)
    else cfg.headers
  | none => cfg.headers

/-- `DownloadConfig.get_url` (downloader.py lines 44-69).  `Except.error`
models `raise ValueError`.  The unguarded `urlparse(url)` call on line 57
comes first, so its own `ValueError` propagates out of `get_url`; then
for `huggingface.co` the URL is rewritten (`/blob/` to `/resolve/`,
`?download=true` dropped); for `civitai.com` an `ApiKey` query parameter
is appended (after `&` when a query is already present, else after `?`)
and a missing token raises; all other URLs are returned unchanged. -/
def get_url (cfg : DownloadConfig) (url : String) : Except String String :=
  match urlparsePy url with
  | Except.error e => Except.error e
  | Except.ok p =>
    if p.netloc = "huggingface.co" then
      Except.ok (pyReplace (pyReplace url "/blob/" "/resolve/") "?download=true" "")
    else if p.netloc = "civitai.com" then
      if tokenFalsy cfg then
        Except.error "A token is required for downloading from civitai."
      else
        if p.query ≠ "" then Except.ok (url ++ ("&" ++ ("ApiKey=" ++ cfg.token.getD "")))
        else Except.ok (url ++ ("?" ++ ("ApiKey=" ++ cfg.token.getD "")))
    else Except.ok url

/-- Whether an `Except`-modelled call raised. -/
def raised {α : Type} : Except String α → Bool
  | .error _ => true
  | .ok _ => false

/-! ## `clone_repo` (`colablib/utils/git_utils.py`, lines 9-63)

The filesystem is a set of existing paths (`fs`); the `git clone`
subprocess is a parameter `git` mapping the command line to
`(returncode, stderr)`.  The `commit_hash` checkout performed after a
successful clone and the per-item `cprint` in non-batch mode do not affect
the returned message and are omitted; the enclosing `try`/`except` cannot
fire in this pure fragment (every operation before the early return is
total). -/

/-- `os.path.join(a, b)` for POSIX paths as used by the source. -/
def joinPath (a b : String) : String :=
  if pyStartsWith b "/" then b
  else if a = "" then b
  else if pyEndsWith a "/" then a ++ b
  else a ++ ("/" ++ b)

/-- The text after the last `/` of a path (Python `path.split('/')[-1]`). -/
def lastComponent (p : String) : String :=
  ⟨(p.data.reverse.takeWhile (fun c => c ≠ '/')).reverse⟩

/-- `urlparse(url).path.split('/')[-1].replace('.git', '')` — the
repository name `clone_repo` derives from the URL (git_utils.py line 22). -/
def parsedName (url : String) : String :=
  pyReplace (lastComponent (urlparseModel url).path) ".git" ""

/-- The effective `directory` after `if not directory: directory = parsed_url`
(falsy: `None` or empty). -/
def effectiveDir (url : String) (directory : Option String) : String :=
  match directory with
  | some d => if d = "" then parsedName url else d
  | none => parsedName url

/-- The path whose existence `clone_repo` tests before cloning
(git_utils.py line 27): `cwd/parsed_url` when `cwd` is given, else the
effective directory. -/
def cloneCheckPath (url : String) (cwd directory : Option String) : String :=
  match cwd with
  | some c => joinPath c (parsedName url)
  | none => effectiveDir url directory

/-- The directory a non-skipped clone actually writes to: the effective
directory, resolved against `cwd` when one is given (the subprocess runs
with that working directory). -/
def cloneDestination (url : String) (cwd directory : Option String) : String :=
  match cwd with
  | some c => joinPath c (effectiveDir url directory)
  | none => effectiveDir url directory

/-- Result of `clone_repo`: the subprocess command line when one was
invoked (`none` when the clone was skipped), and the returned message. -/
structure CloneResult where
  invoked : Option (List String)
  message : String
deriving Repr, DecidableEq

/-- `clone_repo` (git_utils.py lines 21-63). -/
def clone_repo (fs : List String) (git : List String → Int × String)
    (url : String) (cwd directory branch : Option String) (recursive : Bool) :
    CloneResult :=
  let pn := parsedName url
  let dir := effectiveDir url directory
  if fs.contains (cloneCheckPath url cwd directory) then
    { invoked := none, message := "Directory '" ++ (pn ++ "' already exists.") }
  else
    let cmd := ["git", "clone", url] ++
      (match branch with | some b => ["-b", b] | none => []) ++
      (if recursive then ["--recursive"] else []) ++
      (if dir ≠ "" then [dir] else [])
    let r := git cmd
    if r.1 = 0 then
      { invoked := some cmd, message := "Cloning '" ++ (pn ++ "' was successful.") }
    else
      { invoked := some cmd,
        message := "Cloning '" ++ (pn ++ ("' failed. Error: " ++ r.2)) }

/-! ## The batch coordinators

A batch run is embedded as the list of per-request completion events in
the order `as_completed` yields them: each event carries an opaque request
identifier and the behaviour of `future.result()` for it —
`Except.ok m` when the executor returned the value `m`, `Except.error e`
when an exception with message `e` escaped it.  The folds below are the
exact loop bodies of the source; their totality in Lean is the model of
"the batch function itself never raises". -/

/-- Colors passed to `cprint` by the reporting code. -/
inductive Color where
  | green
  | yellow
  | red
  | flatRed
deriving Repr, DecidableEq

/-- `future.result()` returned normally. -/
def execOk {α : Type} : Except String α → Bool
  | .ok _ => true
  | .error _ => false

/-- `batch_clone`'s result-collection loop (git_utils.py lines 271-278):
store `future.result()` in `results` per future, but on the first escaping
exception print an error and `return None`, abandoning the batch.
`clone_repo` itself returns `None` on an internal exception, hence the
`Option String` messages. -/
def batchCloneCollect :
    List (Nat × Except String (Option String)) → Option (List (Nat × Option String))
  | [] => some []
  | (i, Except.ok m) :: rest => (batchCloneCollect rest).map (fun l => (i, m) :: l)
  | (_, Except.error _) :: _ => none

/-- The number of times `batch_clone`'s `tqdm` progress bar advances.
`tqdm` wrapping an iterator increments only when the loop body for an item
has finished and the next item is requested, so on the early `return`
triggered by an escaping exception neither the raising item nor the
remaining ones are counted. -/
def batchCloneProgress : List (Nat × Except String (Option String)) → Nat
  | [] => 0
  | (_, Except.ok _) :: rest => 1 + batchCloneProgress rest
  | (_, Except.error _) :: _ => 0

/-- The flat-red error lines `batch_clone` prints while collecting: one for
the first escaping exception, after which the function returns. -/
def batchCloneErrorLines : List (Nat × Except String (Option String)) → List String
  | [] => []
  | (_, Except.ok _) :: rest => batchCloneErrorLines rest
  | (_, Except.error e) :: _ => ["Error while cloning a repository: " ++ e]

/-- Message classification in `batch_clone`'s report (git_utils.py lines
285-290): yellow when the lowercased message contains `already exists`,
green when it contains neither `failed` nor `error`, red otherwise. -/
def classifyCloneMsg (m : String) : Color :=
  if strContains (pyLower m) "already exists" then Color.yellow
  else if !(strContains (pyLower m) "failed" || strContains (pyLower m) "error") then Color.green
  else Color.red

/-- Message classification in `batch_update`'s report (git_utils.py lines
329-335): green when the lowercased message contains neither `failed` nor
`error`; otherwise yellow when it contains `already exists`, else red. -/
def classifyUpdateMsg (m : String) : Color :=
  if !(strContains (pyLower m) "failed" || strContains (pyLower m) "error") then Color.green
  else if strContains (pyLower m) "already exists" then Color.yellow
  else Color.red

/-- `batch_clone`'s post-completion report (git_utils.py lines 283-291):
one `cprint` line per collected outcome whose message is truthy (not
`None`, not empty), colored by `classifyCloneMsg`. -/
def batchCloneReport (results : List (Nat × Option String)) :
    List (Nat × String × Color) :=
  results.filterMap (fun p =>
    match p.2 with
    | none => none
    | some m => if m = "" then none else some (p.1, m, classifyCloneMsg m))

/-- `batch_update`'s post-completion report (git_utils.py lines 327-336),
identical shape with the other classifier. -/
def batchUpdateReport (results : List (Nat × Option String)) :
    List (Nat × String × Color) :=
  results.filterMap (fun p =>
    match p.2 with
    | none => none
    | some m => if m = "" then none else some (p.1, m, classifyUpdateMsg m))

/-- `batch_clone`'s report loop run against a logger that may itself raise
(`logOk i m = false` models `cprint` raising while logging outcome `i`):
the loop has no per-line failure boundary, so a raise aborts it and
propagates.  Returns the lines actually emitted and the point of the
escaping exception, if any. -/
def batchCloneReportLoop (logOk : Nat → String → Bool) :
    List (Nat × Option String) → List (Nat × String × Color) × Option (Nat × String)
  | [] => ([], none)
  | (i, m?) :: rest =>
    match m? with
    | none => batchCloneReportLoop logOk rest
    | some m =>
      if m = "" then batchCloneReportLoop logOk rest
      else if logOk i m then
        let p := batchCloneReportLoop logOk rest
        ((i, m, classifyCloneMsg m) :: p.1, p.2)
      else ([], some (i, m))

/-- `batch_download`'s collection loop (downloader.py lines 232-240):
`pbar.update(1)` only after `future.result()` returns normally; an
escaping exception instead prints a flat-red line and the loop continues
with the next future.  `download` returns no value, hence `Unit`.
Returns (number of progress updates, flat-red error lines printed). -/
def batchDownloadCollect : List (Nat × Except String Unit) → Nat × List String
  | [] => (0, [])
  | (_, Except.ok _) :: rest =>
    let p := batchDownloadCollect rest
    (p.1 + 1, p.2)
  | (_, Except.error e) :: rest =>
    let p := batchDownloadCollect rest
    (p.1, ("Failed to download file with error: " ++ e) :: p.2)

/-! ## Claim C10: equivalence of the two `parse_args` implementations -/

/-- C10 counterexample: the two `parse_args` implementations are not
equivalent.  On a configuration holding a list value (as `aria2_download`'s
`header` entry actually is), the `sd_models` version emits
`--header=<str(list)>` while the `model_downloader` version drops the
entry. -/
theorem c10_counterexample :
    parse_args_sd [("header", PyVal.pyother "[1]")] = ["--header=[1]"] ∧
    parse_args_md [("header", PyVal.pyother "[1]")] = [] ∧
    parse_args_sd [("header", PyVal.pyother "[1]")] ≠
      parse_args_md [("header", PyVal.pyother "[1]")] := by
  refine ⟨by decide, by decide, by decide⟩

/-- C10 (amended): the two `parse_args` implementations agree on every
configuration whose values are all of Python type `NoneType`, `bool`,
`int`, `float` or `str`, and on such configurations both match the
claimed description (`_`-keys contribute the bare value, true booleans
`--key`, false booleans and `None` nothing, all other values
`--key=value`); they differ on values of any other type. -/
theorem c10_equiv_on_scalars (config : List (String × PyVal))
    (h : ∀ p ∈ config, p.2.isScalar = true) :
    parse_args_sd config = parse_args_md config ∧
    parse_args_sd config = parse_args_described config := by
  induction config with
  | nil => exact ⟨rfl, rfl⟩
  | cons p rest ih =>
    obtain ⟨hmd, hdesc⟩ := ih (fun q hq => h q (List.mem_cons_of_mem _ hq))
    have hmd2 : parse_args_md rest = parse_args_described rest := hmd.symm.trans hdesc
    obtain ⟨k, v⟩ := p
    have hv : v.isScalar = true := h (k, v) (List.mem_cons_self _ _)
    cases v with
    | pynone =>
      simp [parse_args_sd, parse_args_md, parse_args_described, PyVal.isNone,
        PyVal.isBool, PyVal.isStr, PyVal.isFloat, PyVal.isInt, PyVal.boolVal, hmd, hdesc, hmd2]
    | pybool b =>
      cases b <;>
        simp [parse_args_sd, parse_args_md, parse_args_described, PyVal.isNone,
          PyVal.isBool, PyVal.isStr, PyVal.isFloat, PyVal.isInt, PyVal.boolVal, hmd, hdesc, hmd2]
    | pyint n =>
      simp [parse_args_sd, parse_args_md, parse_args_described, PyVal.isNone,
        PyVal.isBool, PyVal.isStr, PyVal.isFloat, PyVal.isInt, PyVal.boolVal, hmd, hdesc, hmd2]
    | pyfloat r =>
      simp [parse_args_sd, parse_args_md, parse_args_described, PyVal.isNone,
        PyVal.isBool, PyVal.isStr, PyVal.isFloat, PyVal.isInt, PyVal.boolVal, hmd, hdesc, hmd2]
    | pystr s =>
      simp [parse_args_sd, parse_args_md, parse_args_described, PyVal.isNone,
        PyVal.isBool, PyVal.isStr, PyVal.isFloat, PyVal.isInt, PyVal.boolVal, hmd, hdesc, hmd2]
    | pyother r => simp [PyVal.isScalar] at hv

/-- C10 witness: the amended equivalence evaluated on a concrete scalar
configuration resembling the source's aria2 configuration. -/
theorem c10_equiv_on_scalars_witness :
    parse_args_sd [("_url", PyVal.pystr "http://x"), ("continue", PyVal.pybool true),
        ("split", PyVal.pyint 16), ("min-split-size", PyVal.pystr "1M"),
        ("dir", PyVal.pynone)] =
      parse_args_md [("_url", PyVal.pystr "http://x"), ("continue", PyVal.pybool true),
        ("split", PyVal.pyint 16), ("min-split-size", PyVal.pystr "1M"),
        ("dir", PyVal.pynone)] ∧
    parse_args_sd [("_url", PyVal.pystr "http://x"), ("continue", PyVal.pybool true),
        ("split", PyVal.pyint 16), ("min-split-size", PyVal.pystr "1M"),
        ("dir", PyVal.pynone)] =
      parse_args_described [("_url", PyVal.pystr "http://x"), ("continue", PyVal.pybool true),
        ("split", PyVal.pyint 16), ("min-split-size", PyVal.pystr "1M"),
        ("dir", PyVal.pynone)] :=
  c10_equiv_on_scalars _ (by decide)

/-! ## Claim C4: the empty batch -/

/-- C4: for the empty input list the coordinators record no outcomes
(`batch_clone`'s internal results mapping is created and stays empty),
emit no per-outcome log lines and advance progress zero times; the
collection and report functions are total, so no exception is raised. -/
theorem c4_empty_batch :
    batchCloneCollect [] = some [] ∧
    batchCloneProgress [] = 0 ∧
    batchCloneReport [] = [] ∧
    batchCloneErrorLines [] = [] ∧
    batchDownloadCollect [] = (0, []) := by
  refine ⟨rfl, rfl, rfl, rfl, rfl⟩

/-! ## Claim C3: progress advances exactly N times -/

/-- C3 counterexample: progress is not advanced exactly once per request
when an execution raises.  In `batch_clone` a raising future stops the
loop before its own (and any later) `tqdm` increment, and in
`batch_download` `pbar.update(1)` is skipped for a raising future: here
two clone requests yield one advance and one download request yields
zero. -/
theorem c3_counterexample :
    batchCloneProgress [(0, Except.ok (some "m")), (1, Except.error "boom")] = 1 ∧
    (batchDownloadCollect [(0, Except.error "boom")]).1 = 0 := by
  refine ⟨rfl, rfl⟩

/-- C3 (amended): `batch_download` advances progress once per request whose
result is retrieved without an escaping exception; `batch_clone` advances
once per request in the longest exception-free initial segment of
completion order.  In particular, with no escaping exceptions progress
advances exactly N times for N requests, whatever the mix of success,
skip and failure messages. -/
theorem c3_progress_spec :
    (∀ events : List (Nat × Except String (Option String)),
       batchCloneProgress events = (events.takeWhile (fun p => execOk p.2)).length)
    ∧ (∀ events : List (Nat × Except String Unit),
       (batchDownloadCollect events).1 = (events.filter (fun p => execOk p.2)).length) := by
  constructor
  · intro events
    induction events with
    | nil => rfl
    | cons p rest ih =>
      obtain ⟨i, r⟩ := p
      cases r with
      | ok m => simp [batchCloneProgress, execOk, List.takeWhile_cons, ih, Nat.add_comm]
      | error e => simp [batchCloneProgress, execOk, List.takeWhile_cons]
  · intro events
    induction events with
    | nil => rfl
    | cons p rest ih =>
      obtain ⟨i, r⟩ := p
      cases r with
      | ok m => simp [batchDownloadCollect, execOk, List.filter_cons, ih]
      | error e => simp [batchDownloadCollect, execOk, List.filter_cons, ih]

/-! ## Claim C1: one recorded outcome per request -/

/-- C1 counterexample: the coordinator does not record one outcome per
request "regardless of how many individual executions fail".  With two
clone requests whose first retrieved result raises, `batch_clone` prints
an error and returns `None` at once: zero outcomes are recorded instead
of two. -/
theorem c1_counterexample :
    batchCloneCollect
      [(0, Except.error "boom"), (1, Except.ok (some "Cloning 'repo' was successful."))] =
      none := rfl

/-- C1 (amended): when no execution raises an escaping exception,
`batch_clone`'s internal results mapping receives exactly one outcome per
input request — never zero, never more than one — whatever mix of
success, skip and failure messages the executors return; if any execution
raises, the mapping is abandoned (`None` is returned instead).
`batch_download` maintains no results mapping at all, and neither
function returns its results to the caller. -/
theorem c1_one_outcome_per_request
    (events : List (Nat × Except String (Option String)))
    (h : ∀ p ∈ events, execOk p.2 = true) :
    ∃ rs, batchCloneCollect events = some rs ∧
      rs.length = events.length ∧ rs.map Prod.fst = events.map Prod.fst := by
  induction events with
  | nil => exact ⟨[], rfl, rfl, rfl⟩
  | cons p rest ih =>
    obtain ⟨i, r⟩ := p
    cases r with
    | error e =>
      have := h (i, Except.error e) (List.mem_cons_self _ _)
      simp [execOk] at this
    | ok m =>
      obtain ⟨rs, hrs, hlen, hmap⟩ := ih (fun q hq => h q (List.mem_cons_of_mem _ hq))
      exact ⟨(i, m) :: rs, by simp [batchCloneCollect, hrs], by simp [hlen],
        by simp [hmap]⟩

/-- C1 witness: the amended statement evaluated on a concrete two-request
batch with one success and one skip. -/
theorem c1_one_outcome_per_request_witness :
    ∃ rs, batchCloneCollect
        [(0, Except.ok (some "Cloning 'a' was successful.")), (1, Except.ok none)] =
        some rs ∧ rs.length = 2 ∧ rs.map Prod.fst = [0, 1] :=
  c1_one_outcome_per_request _ (by decide)

/-! ## Claim C2: an escaping executor exception -/

/-- C2 counterexample: when the executor raises for request 0,
`batch_clone` does not record a `Failed` outcome for it and does not
continue collecting: it returns `None`, dropping request 1's outcome
too. -/
theorem c2_counterexample :
    batchCloneCollect
      [(0, Except.error "connection reset"),
       (1, Except.ok (some "Cloning 'b' was successful."))] = none := rfl

/-- C2 (amended): an escaping executor exception never propagates out of
either batch function (the models are total), but it is not converted
into a recorded `Failed` outcome.  `batch_clone` abandons the whole
collection exactly when some execution raises; `batch_download` prints
one flat-red error line per raising request — in completion order,
continuing with the remaining results — and records nothing. -/
theorem c2_raise_behavior :
    (∀ events : List (Nat × Except String (Option String)),
       (batchCloneCollect events = none ↔ ∃ p ∈ events, execOk p.2 = false))
    ∧ (∀ events : List (Nat × Except String Unit),
       (batchDownloadCollect events).2 = events.filterMap (fun p =>
         match p.2 with
         | Except.error e => some ("Failed to download file with error: " ++ e)
         | Except.ok _ => none)) := by
  constructor
  · intro events
    induction events with
    | nil => simp [batchCloneCollect]
    | cons p rest ih =>
      obtain ⟨i, r⟩ := p
      cases r with
      | ok m => simp [batchCloneCollect, execOk, ih]
      | error e => simp [batchCloneCollect, execOk]
  · intro events
    induction events with
    | nil => rfl
    | cons p rest ih =>
      obtain ⟨i, r⟩ := p
      cases r with
      | ok m => simp [batchDownloadCollect, ih]
      | error e => simp [batchDownloadCollect, ih]

/-- C2 witness: the amended statement evaluated on concrete batches — a
clone batch whose second result raises is abandoned, and a download batch
with raises at both ends still yields one error line each while
continuing past the first. -/
theorem c2_raise_behavior_witness :
    batchCloneCollect [(0, Except.ok (some "m")), (1, Except.error "boom")] = none ∧
    (batchDownloadCollect [(0, Except.error "x"), (1, Except.ok ()), (2, Except.error "y")]).2 =
      ["Failed to download file with error: x", "Failed to download file with error: y"] := by
  constructor
  · exact (c2_raise_behavior.1 _).mpr
      ⟨(1, Except.error "boom"), List.mem_cons_of_mem _ (List.mem_cons_self _ _), rfl⟩
  · exact (c2_raise_behavior.2 _).trans (by decide)

/-! ## Claim C5: the per-outcome report -/

/-- C5 counterexample: the report does not log exactly one line per
recorded outcome, and `batch_update` does not color an `already exists`
message yellow.  Two recorded clone outcomes — a skip and a `None`
message (`clone_repo`'s internal-exception result) — produce a single
line; and `batch_update`'s classifier colors a pure `already exists`
message green, because its `already exists` test is only reached when the
message also contains `failed` or `error`. -/
theorem c5_counterexample :
    batchCloneReport [(0, some "Directory 'x' already exists."), (1, none)] =
      [(0, "Directory 'x' already exists.", Color.yellow)] ∧
    classifyUpdateMsg "Directory 'x' already exists." = Color.green := by
  refine ⟨by decide, by decide⟩

/-- C5 (amended): after all requests complete with `quiet` false,
`batch_clone` logs one line per recorded outcome whose message is truthy
(not `None`, not empty) — outcomes with a `None` or empty message produce
no line.  Each emitted line carries the outcome's own message and is
colored yellow when the lowercased message contains `already exists`,
green when it contains neither `failed` nor `error`, and red otherwise.
`batch_update` instead colors any message without `failed`/`error` green
(even an `already exists` one).  (`batch_download` performs no
post-completion per-outcome report at all; its only per-item lines are
the flat-red ones of `batchDownloadCollect`.) -/
theorem c5_report_spec :
    (∀ rs : List (Nat × Option String),
       (batchCloneReport rs).length =
         (rs.filter (fun p =>
           match p.2 with
           | some m => !(m = "" : Bool)
           | none => false)).length)
    ∧ (∀ rs : List (Nat × Option String), ∀ i m c, (i, m, c) ∈ batchCloneReport rs →
        (i, some m) ∈ rs ∧ ¬(m = "") ∧ c = classifyCloneMsg m)
    ∧ (∀ m, strContains (pyLower m) "already exists" = true →
        classifyCloneMsg m = Color.yellow)
    ∧ (∀ m, strContains (pyLower m) "failed" = false → strContains (pyLower m) "error" = false →
        classifyUpdateMsg m = Color.green) := by
  refine ⟨?_, ?_, ?_, ?_⟩
  · intro rs
    induction rs with
    | nil => rfl
    | cons p rest ih =>
      obtain ⟨i, m?⟩ := p
      cases m? with
      | none => simpa [batchCloneReport, List.filter_cons] using ih
      | some m =>
        by_cases hm : m = "" <;>
          simp_all [batchCloneReport, List.filter_cons, List.filterMap_cons]
  · intro rs i m c hmem
    induction rs with
    | nil => simp [batchCloneReport] at hmem
    | cons p rest ih =>
      obtain ⟨j, m?⟩ := p
      cases m? with
      | none =>
        simp only [batchCloneReport, List.filterMap_cons] at hmem
        obtain ⟨h1, h2, h3⟩ := ih hmem
        exact ⟨List.mem_cons_of_mem _ h1, h2, h3⟩
      | some m' =>
        by_cases hm : m' = ""
        · simp only [batchCloneReport, List.filterMap_cons, hm, if_pos rfl] at hmem
          have hmem' : (i, m, c) ∈ batchCloneReport rest := by
            simpa [batchCloneReport, hm] using hmem
          obtain ⟨h1, h2, h3⟩ := ih hmem'
          exact ⟨List.mem_cons_of_mem _ h1, h2, h3⟩
        · have hmem' : (i, m, c) = (j, m', classifyCloneMsg m') ∨
              (i, m, c) ∈ batchCloneReport rest := by
            simpa [batchCloneReport, hm] using hmem
          rcases hmem' with heq | hrest
          · have e1 : i = j := congrArg Prod.fst heq
            have e2 : m = m' := congrArg (fun t => t.2.1) heq
            have e3 : c = classifyCloneMsg m' := congrArg (fun t => t.2.2) heq
            subst e1
            subst e2
            exact ⟨List.mem_cons_self _ _, hm, e3⟩
          · obtain ⟨h1, h2, h3⟩ := ih hrest
            exact ⟨List.mem_cons_of_mem _ h1, h2, h3⟩
  · intro m h
    simp [classifyCloneMsg, h]
  · intro m h1 h2
    simp [classifyUpdateMsg, h1, h2]

/-- C5 witness: the amended statement evaluated on the three concrete
message shapes `clone_repo` produces. -/
theorem c5_report_spec_witness :
    classifyCloneMsg "Directory 'a' already exists." = Color.yellow ∧
    classifyUpdateMsg "'a' updated to the latest version" = Color.green ∧
    ((0, "Cloning 'a' was successful.", Color.green) ∈
        batchCloneReport [(0, some "Cloning 'a' was successful.")] →
      (0, some "Cloning 'a' was successful.") ∈
        [((0 : Nat), some "Cloning 'a' was successful.")] ∧
      ¬("Cloning 'a' was successful." = "") ∧
      Color.green = classifyCloneMsg "Cloning 'a' was successful.") := by
  refine ⟨c5_report_spec.2.2.1 _ (by decide),
    c5_report_spec.2.2.2 _ (by decide) (by decide), ?_⟩
  intro hmem
  exact c5_report_spec.2.1 _ 0 _ _ hmem

/-! ## Claim C6: an already-existing clone destination -/

/-- C6 counterexample: the skip check does not test the clone's
destination when `cwd` is set together with an explicit `directory`.
With `cwd = "/w"` and `directory = "custom"`, the destination `/w/custom`
already exists, yet `clone_repo` tests `/w/repo` (the URL-derived name),
invokes the clone subprocess anyway, and the resulting message is
classified red, not yellow. -/
theorem c6_counterexample :
    cloneDestination "https://github.com/user/repo.git" (some "/w") (some "custom") =
      "/w/custom" ∧
    (clone_repo ["/w/custom"]
        (fun _ => (1, "fatal: destination path exists"))
        "https://github.com/user/repo.git" (some "/w") (some "custom") none false).invoked ≠
      none ∧
    classifyCloneMsg (clone_repo ["/w/custom"]
        (fun _ => (1, "fatal: destination path exists"))
        "https://github.com/user/repo.git" (some "/w") (some "custom") none false).message =
      Color.red := by
  refine ⟨by decide, by decide, by decide⟩

/-- C6 (amended): whenever the path `clone_repo` actually checks —
`cwd/parsed-name` when `cwd` is set, otherwise the effective `directory`
argument (which is the clone's destination in the `cwd`-less case) —
already exists, `clone_repo` invokes no subprocess and returns
`Directory '<name>' already exists.`, which the batch report classifies
yellow (skip), not as a failure. -/
theorem c6_skip_when_check_path_exists (fs : List String)
    (git : List String → Int × String) (url : String)
    (cwd directory branch : Option String) (recursive : Bool)
    (h : fs.contains (cloneCheckPath url cwd directory) = true) :
    (clone_repo fs git url cwd directory branch recursive).invoked = none ∧
    (clone_repo fs git url cwd directory branch recursive).message =
      "Directory '" ++ (parsedName url ++ "' already exists.") ∧
    classifyCloneMsg (clone_repo fs git url cwd directory branch recursive).message =
      Color.yellow := by
  have hres : clone_repo fs git url cwd directory branch recursive =
      { invoked := none, message := "Directory '" ++ (parsedName url ++ "' already exists.") } := by
    unfold clone_repo
    rw [if_pos h]
  have hsub : strContains
      (pyLower ("Directory '" ++ (parsedName url ++ "' already exists."))) "already exists" =
      true := by
    rw [pyLower_append]
    apply strContains_append_right
    rw [pyLower_append]
    apply strContains_append_right
    decide
  refine ⟨by rw [hres], by rw [hres], ?_⟩
  rw [hres]
  simp [classifyCloneMsg, hsub]

/-- C6 witness: the amended statement evaluated on a concrete request with
no `cwd` whose destination directory `repo` is present. -/
theorem c6_skip_when_check_path_exists_witness :
    (clone_repo ["repo"] (fun _ => (0, ""))
        "https://github.com/user/repo.git" none none none false).invoked = none ∧
    (clone_repo ["repo"] (fun _ => (0, ""))
        "https://github.com/user/repo.git" none none none false).message =
      "Directory '" ++ (parsedName "https://github.com/user/repo.git" ++ "' already exists.") ∧
    classifyCloneMsg (clone_repo ["repo"] (fun _ => (0, ""))
        "https://github.com/user/repo.git" none none none false).message = Color.yellow :=
  c6_skip_when_check_path_exists _ _ _ _ _ _ _ (by decide)

/-! ## Claim C7: independence of the report's log lines -/

/-- C7 counterexample: the report loop has no per-line failure boundary.
With two classifiable outcomes and a logger that raises on outcome 0
only, no line at all is emitted (in particular outcome 1's line is lost)
and the exception escapes, although a fault-free run would emit both
lines. -/
theorem c7_counterexample :
    batchCloneReportLoop (fun i _ => decide (i ≠ 0))
        [(0, some "Cloning 'a' failed. Error: x"), (1, some "Cloning 'b' was successful.")] =
      ([], some (0, "Cloning 'a' failed. Error: x")) ∧
    batchCloneReport
        [(0, some "Cloning 'a' failed. Error: x"), (1, some "Cloning 'b' was successful.")] =
      [(0, "Cloning 'a' failed. Error: x", Color.red),
       (1, "Cloning 'b' was successful.", Color.green)] := by
  refine ⟨by decide, by decide⟩

/-- C7 (amended): with a logger that never raises, the report loop emits
exactly the lines of `batchCloneReport`; but if logging any one outcome
raises, the loop stops there — what was emitted is a proper prefix of the
full report, every outcome after the crash point goes unlogged, and the
exception propagates out of `batch_clone`. -/
theorem c7_report_loop_not_independent :
    (∀ rs : List (Nat × Option String),
       batchCloneReportLoop (fun _ _ => true) rs = (batchCloneReport rs, none))
    ∧ (∀ (logOk : Nat → String → Bool) (rs : List (Nat × Option String)),
       (batchCloneReportLoop logOk rs).2.isSome = true →
       (batchCloneReportLoop logOk rs).1.length < (batchCloneReport rs).length ∧
       (batchCloneReportLoop logOk rs).1 =
         (batchCloneReport rs).take (batchCloneReportLoop logOk rs).1.length) := by
  constructor
  · intro rs
    induction rs with
    | nil => rfl
    | cons p rest ih =>
      obtain ⟨i, m?⟩ := p
      cases m? with
      | none => simpa [batchCloneReportLoop, batchCloneReport] using ih
      | some m =>
        by_cases hm : m = "" <;>
          simp_all [batchCloneReportLoop, batchCloneReport, List.filterMap_cons]
  · intro logOk rs
    induction rs with
    | nil => intro h; simp [batchCloneReportLoop] at h
    | cons p rest ih =>
      obtain ⟨i, m?⟩ := p
      cases m? with
      | none =>
        intro h
        simp only [batchCloneReportLoop] at h ⊢
        simpa [batchCloneReport] using ih h
      | some m =>
        by_cases hm : m = ""
        · intro h
          simp only [batchCloneReportLoop, hm, if_pos rfl] at h ⊢
          have := ih (by simpa [batchCloneReportLoop, hm] using h)
          simpa [batchCloneReport, hm] using this
        · by_cases hl : logOk i m = true
          · intro h
            have h' : (batchCloneReportLoop logOk rest).2.isSome = true := by
              simpa [batchCloneReportLoop, hm, hl] using h
            obtain ⟨ih1, ih2⟩ := ih h'
            constructor
            · simpa [batchCloneReportLoop, batchCloneReport, hm, hl, Nat.succ_lt_succ_iff]
                using ih1
            · simp only [batchCloneReportLoop, batchCloneReport, List.filterMap_cons, hm,
                if_neg hm, hl, if_pos rfl, List.length_cons, List.take_succ_cons]
              simpa [batchCloneReport] using ih2
          · intro _
            have hl' : logOk i m = false := by
              cases hll : logOk i m
              · rfl
              · exact absurd hll hl
            constructor
            · simp [batchCloneReportLoop, batchCloneReport, List.filterMap_cons, hm, hl',
                Nat.succ_pos]
            · simp [batchCloneReportLoop, hm, hl']

/-- C7 witness: the amended statement evaluated with a logger raising on
the single classifiable outcome. -/
theorem c7_report_loop_not_independent_witness :
    (batchCloneReportLoop (fun _ _ => false) [(0, some "Cloning 'c' was successful.")]).1.length <
      (batchCloneReport [(0, some "Cloning 'c' was successful.")]).length ∧
    (batchCloneReportLoop (fun _ _ => false) [(0, some "Cloning 'c' was successful.")]).1 =
      (batchCloneReport [(0, some "Cloning 'c' was successful.")]).take
        (batchCloneReportLoop (fun _ _ => false)
          [(0, some "Cloning 'c' was successful.")]).1.length :=
  c7_report_loop_not_independent.2 _ _ (by decide)

/-! ## Claim C8: `DownloadConfig.get_url` -/

/-- C8 counterexample: `get_url` raises `ValueError` outside the claimed
civitai-without-token case.  On `http://[x` the unguarded `urlparse` call
itself raises `ValueError("Invalid IPv6 URL")` (unmatched bracket in the
netloc) although a token is set, so "raises if and only if the netloc is
civitai.com and no token is set" fails in the only-if direction. -/
theorem c8_counterexample :
    raised (get_url ⟨some "tok", []⟩ "http://[x") = true ∧
    get_url ⟨some "tok", []⟩ "http://[x" = Except.error "Invalid IPv6 URL" ∧
    tokenFalsy ⟨some "tok", []⟩ = false := by
  refine ⟨rfl, rfl, rfl⟩

/-- C8 (amended): `get_url` propagates `urlparse`'s own `ValueError` —
in particular, a netloc with an unmatched `[` or `]` raises
`Invalid IPv6 URL` whatever the token.  For URLs `urlparse` accepts
(stated here for ASCII, bracket-free netlocs, where acceptance is
version-independent), `get_url` raises exactly when the netloc is
`civitai.com` and the token is unset (`None` or empty); for `civitai.com`
with a token it appends `ApiKey=<token>` after `&` when a query string is
present and after `?` otherwise; for `huggingface.co` it rewrites
`/blob/` to `/resolve/` and removes `?download=true`; every other URL is
returned unchanged. -/
theorem c8_get_url_raise_spec (cfg : DownloadConfig) (url : String) :
    (invalidIPv6Netloc (netlocOf url) = true →
      get_url cfg url = Except.error "Invalid IPv6 URL")
    ∧ (asciiBracketFree (netlocOf url) = true →
      ((raised (get_url cfg url) = true ↔
        ((urlparseModel url).netloc = "civitai.com" ∧ tokenFalsy cfg = true))
      ∧ ((urlparseModel url).netloc = "civitai.com" → tokenFalsy cfg = false →
         get_url cfg url = Except.ok
           (url ++ ((if (urlparseModel url).query ≠ "" then "&" else "?") ++
             ("ApiKey=" ++ cfg.token.getD ""))))
      ∧ ((urlparseModel url).netloc = "huggingface.co" →
         get_url cfg url =
           Except.ok (pyReplace (pyReplace url "/blob/" "/resolve/") "?download=true" ""))
      ∧ ((urlparseModel url).netloc ≠ "civitai.com" →
         (urlparseModel url).netloc ≠ "huggingface.co" →
         get_url cfg url = Except.ok url))) := by
  constructor
  · intro hbad
    simp [get_url, urlparsePy, hbad]
  · intro hfree
    have hok : urlparsePy url = Except.ok (urlparseModel url) := by
      simp [urlparsePy, not_invalidIPv6_of_asciiBracketFree _ hfree]
    have hne : ¬(("huggingface.co" : String) = "civitai.com") := by decide
    by_cases hH : (urlparseModel url).netloc = "huggingface.co"
    · have hC : ¬((urlparseModel url).netloc = "civitai.com") :=
        fun hC => hne (hH.symm.trans hC)
      have he : get_url cfg url =
          Except.ok (pyReplace (pyReplace url "/blob/" "/resolve/") "?download=true" "") := by
        simp [get_url, hok, hH]
      refine ⟨?_, fun h => absurd h hC, fun _ => he, fun _ h => absurd hH h⟩
      rw [he]
      simp [raised, hC]
    · by_cases hC : (urlparseModel url).netloc = "civitai.com"
      · cases htok : tokenFalsy cfg
        · have he : get_url cfg url =
              Except.ok (url ++ ((if (urlparseModel url).query ≠ "" then "&" else "?") ++
                ("ApiKey=" ++ cfg.token.getD ""))) := by
            by_cases hq : (urlparseModel url).query = ""
            · simp [get_url, hok, hH, hC, htok, hq]
            · simp [get_url, hok, hH, hC, htok, hq]
          refine ⟨?_, fun _ _ => he, fun h => absurd h hH, fun h => absurd hC h⟩
          rw [he]
          simp [raised, htok]
        · have he : get_url cfg url =
              Except.error "A token is required for downloading from civitai." := by
            simp [get_url, hok, hH, hC, htok]
          refine ⟨?_, ?_, fun h => absurd h hH, fun h => absurd hC h⟩
          · rw [he]
            simp [raised, hC, htok]
          · intro _ hf
            exact absurd hf (by simp [htok])
      · have he : get_url cfg url = Except.ok url := by
          simp [get_url, hok, hH, hC]
        refine ⟨?_, fun h => absurd h hC, fun h => absurd h hH, fun _ _ => he⟩
        rw [he]
        simp [raised, hC]

/-- C8 witness: the five behaviours evaluated at concrete URLs — an
unmatched-bracket URL raises `Invalid IPv6 URL` despite a token, a
civitai URL without a token raises, one with a token and an existing
query gets `&ApiKey=`, a huggingface blob URL is rewritten, and an
unrelated URL passes through. -/
theorem c8_get_url_raise_spec_witness :
    get_url ⟨some "tok", []⟩ "http://[abc" = Except.error "Invalid IPv6 URL" ∧
    raised (get_url ⟨none, []⟩ "https://civitai.com/models/9") = true ∧
    get_url ⟨some "tok", []⟩ "https://civitai.com/models/9?x=2" =
      Except.ok "https://civitai.com/models/9?x=2&ApiKey=tok" ∧
    get_url ⟨none, []⟩ "https://huggingface.co/a/b/blob/main/x.pt?download=true" =
      Except.ok "https://huggingface.co/a/b/resolve/main/x.pt" ∧
    get_url ⟨none, []⟩ "https://example.com/f.ckpt" = Except.ok "https://example.com/f.ckpt" := by
  refine ⟨?_, ?_, ?_, ?_, ?_⟩
  · exact (c8_get_url_raise_spec ⟨some "tok", []⟩ "http://[abc").1 (by decide)
  · exact ((c8_get_url_raise_spec ⟨none, []⟩ "https://civitai.com/models/9").2
      (by decide)).1.mpr ⟨by decide, rfl⟩
  · exact (((c8_get_url_raise_spec ⟨some "tok", []⟩ "https://civitai.com/models/9?x=2").2
      (by decide)).2.1 (by decide) rfl).trans (congrArg Except.ok (by decide))
  · exact (((c8_get_url_raise_spec ⟨none, []⟩
      "https://huggingface.co/a/b/blob/main/x.pt?download=true").2 (by decide)).2.2.1
      (by decide)).trans (congrArg Except.ok (by decide))
  · exact ((c8_get_url_raise_spec ⟨none, []⟩ "https://example.com/f.ckpt").2
      (by decide)).2.2.2 (by decide) (by decide)

/-! ## Claim C9: `DownloadConfig.get_headers` -/

theorem lookupKey_setKey_self (hs : List (String × String)) (k v : String) :
    lookupKey (setKey hs k v) k = some v := by
  induction hs with
  | nil => simp [setKey, lookupKey]
  | cons p rest ih =>
    obtain ⟨k0, v0⟩ := p
    by_cases h : k0 = k
    · simp [setKey, h, lookupKey]
    · simp only [setKey, if_neg h]
      simpa [lookupKey, List.find?_cons, h] using ih

theorem lookupKey_setKey_ne (hs : List (String × String)) (k v k' : String)
    (h : ¬(k' = k)) : lookupKey (setKey hs k v) k' = lookupKey hs k' := by
  have h2 : ¬(k = k') := fun he => h he.symm
  induction hs with
  | nil => simp [setKey, lookupKey, List.find?_cons, h2]
  | cons p rest ih =>
    obtain ⟨k0, v0⟩ := p
    by_cases h0 : k0 = k
    · subst h0
      simp [setKey, lookupKey, List.find?_cons, h2]
    · by_cases h1 : k0 = k'
      · subst h1
        simp [setKey, if_neg h0, lookupKey, List.find?_cons]
      · simp only [setKey, if_neg h0]
        simpa [lookupKey, List.find?_cons, h1] using ih

/-- C9: `get_headers` adds a bearer `Authorization` header exactly when
the URL contains `huggingface.co` and the stored token is a string
starting with `hf_`; otherwise it returns the stored headers unchanged;
and in every case all non-`Authorization` entries of the stored headers
are preserved (the function returns an updated copy, never a mutation of
the stored dict — mutation is inexpressible in this pure embedding, and
the returned value differs from the stored one in at most the
`Authorization` entry). -/
theorem c9_get_headers_spec (cfg : DownloadConfig) (url : String) :
    (∀ t, cfg.token = some t → pyStartsWith t "hf_" = true →
       strContains url "huggingface.co" = true →
       get_headers cfg url = setKey cfg.headers "Authorization" ("Bearer " ++ t) ∧
       lookupKey (get_headers cfg url) "Authorization" = some ("Bearer " ++ t))
    ∧ ((strContains url "huggingface.co" = false ∨ cfg.token = none ∨
        (∀ t, cfg.token = some t → pyStartsWith t "hf_" = false)) →
       get_headers cfg url = cfg.headers)
    ∧ (∀ k, ¬(k = "Authorization") →
       lookupKey (get_headers cfg url) k = lookupKey cfg.headers k) := by
  have hmain : ∀ k, ¬(k = "Authorization") →
      lookupKey (get_headers cfg url) k = lookupKey cfg.headers k := by
    intro k hk
    cases htk : cfg.token with
    | none => simp [get_headers, htk]
    | some t =>
      simp only [get_headers, htk]
      split
      · exact lookupKey_setKey_ne _ _ _ _ hk
      · rfl
  have hnone : (strContains url "huggingface.co" = false ∨ cfg.token = none ∨
      (∀ t, cfg.token = some t → pyStartsWith t "hf_" = false)) →
      get_headers cfg url = cfg.headers := by
    intro hdisj
    cases htk : cfg.token with
    | none => simp [get_headers, htk]
    | some t =>
      rcases hdisj with hurl | htn | hpre
      · simp [get_headers, htk, hurl]
      · rw [htk] at htn
        cases htn
      · simp [get_headers, htk, hpre t htk]
  refine ⟨?_, hnone, hmain⟩
  intro t htk hpre hurl
  have ht : ¬(t = "") := by
    intro he
    rw [he] at hpre
    exact absurd hpre (by decide)
  have he : get_headers cfg url = setKey cfg.headers "Authorization" ("Bearer " ++ t) := by
    simp [get_headers, htk, hurl, hpre, ht]
  exact ⟨he, by rw [he]; exact lookupKey_setKey_self _ _ _⟩

/-- C9 witness: a matching huggingface request with an `hf_` token gets
the bearer header appended to a copy of the stored headers, a token
without the `hf_` prefix adds nothing, and the stored non-`Authorization`
entry is preserved. -/
theorem c9_get_headers_spec_witness :
    get_headers ⟨some "hf_abc", [("X-Key", "1")]⟩ "https://huggingface.co/m" =
      [("X-Key", "1"), ("Authorization", "Bearer hf_abc")] ∧
    get_headers ⟨some "abc", [("X-Key", "1")]⟩ "https://huggingface.co/m" = [("X-Key", "1")] ∧
    lookupKey (get_headers ⟨some "hf_abc", [("X-Key", "1")]⟩ "https://huggingface.co/m")
      "X-Key" = some "1" := by
  refine ⟨?_, ?_, ?_⟩
  · exact (((c9_get_headers_spec ⟨some "hf_abc", [("X-Key", "1")]⟩
      "https://huggingface.co/m").1 "hf_abc" rfl (by decide) (by decide)).1).trans (by decide)
  · exact (c9_get_headers_spec ⟨some "abc", [("X-Key", "1")]⟩
      "https://huggingface.co/m").2.1 (Or.inr (Or.inr (fun t ht => by
        injection ht with h
        subst h
        decide)))
  · exact ((c9_get_headers_spec ⟨some "hf_abc", [("X-Key", "1")]⟩
      "https://huggingface.co/m").2.2 "X-Key" (by decide)).trans (by decide)

end Colablib
